import Mathlib

/-!
# cutbit/errors: annotated errors with one captured stack

A shallow embedding of `errors.go`.  The package wraps plain Go errors in
`*structure` nodes (a cause plus a captured `*stack`) and groups such nodes in a
`*structures` slice.  It leans on the standard `errors` package for chain
inspection (`errors.As`, `errors.Is`, `errors.Unwrap`, `errors.Join`); those four
routines are embedded here from their standard-library behaviour, because the
functions of `errors.go` are nothing but compositions of them.

Modelling decisions, all visible in the definitions below:

* A Go value of interface type `error` is a value of `Err`; the nil interface is
  `Err.nil`.  Errors that do not come from this package are `plain` (a pointer
  without `Unwrap` method, like the `*errorString` of `errors.New` or `io.EOF`),
  `uncomparable` (a value of a slice or map type without `Unwrap` method, like
  `go/scanner.ErrorList`), `wrapper` (a pointer with an `Unwrap() error` method,
  like the result of `fmt.Errorf` with `%w`) or `joinError` (the result of
  `errors.Join`, with `Unwrap() []error`).  They carry no custom `Is`/`As`
  methods.
* Every value of pointer type carries the address it was allocated at.  Go `==`
  on two error values is a test of dynamic type and address (`Err.same`), never of
  content.  A function that allocates takes the address of the new object as an
  argument, so a result that keeps an older address is the older object itself,
  not a copy of it.
* The stack handed to a call stands for the one capture that call would make, so
  a result that does not depend on it was built without a capture.
* A Go string is a `String`; appending bytes to a buffer is string concatenation.
* A `*structure` is always a non-nil pointer (every pointer the package hands out
  is), so the `s == nil` guards of its methods are never taken.
* A call that panics in Go (a method call through a nil interface, an index out
  of range) yields `none`.
* `callers()` is defined in `stack.go`, outside `errors.go`.  The stack it would
  capture is an argument of `New`, `Wrap` and `Join`; `Join` receives one per
  argument position since it calls `callers()` inside its loop.
-/

namespace Errors

/-- Raw return address. -/
abbrev uintptr := Nat

/-- Address of an allocated object; two pointers are equal when their addresses
are. -/
abbrev Addr := Nat

/-- A frame wraps exactly one program counter (`type Frame uintptr`). -/
structure Frame where
  pc : uintptr
deriving DecidableEq

/-- Ordered sequence of frames, innermost first (`type StackTrace []Frame`). -/
abbrev StackTrace := List Frame

/-- Captured program counters (`type stack []uintptr`, as used in `stack_test.go`). -/
structure stack where
  pcs : List uintptr
deriving DecidableEq

/-- Modelled from the spec: `(*stack).StackTrace` is defined in `stack.go`, which is
missing from the sources; per the data model a Stack-Trace is the captured program
counters, each wrapped in a Frame, in capture order. -/
def stack.StackTrace (s : stack) : StackTrace :=
  s.pcs.map Frame.mk

mutual
/-- Values of the Go interface type `error`. -/
inductive Err where
  /-- the nil interface value -/
  | nil
  /-- a pointer to an error without an `Unwrap` method (`errors.New`, `io.EOF`) -/
  | plain (addr : Addr) (msg : String)
  /-- an error whose dynamic type is not comparable (a slice or map type such as
  `go/scanner.ErrorList`), without an `Unwrap` method -/
  | uncomparable (msg : String)
  /-- a pointer to an error of another package with `Unwrap() error`
  (`fmt.Errorf("...%w", inner)`) -/
  | wrapper (addr : Addr) (msg : String) (inner : Err)
  /-- the `*joinError` built by the standard `errors.Join`, with `Unwrap() []error` -/
  | joinError (addr : Addr) (errs : List Err)
  /-- a `*structure` of this package -/
  | node (s : Structure)
  /-- a `*structures` of this package -/
  | group (addr : Addr) (ms : List Structure)
/-- A pointer to the struct `structure`: its address, the embedded `error` and the
embedded `*stack`. -/
inductive Structure where
  | mk (addr : Addr) (error : Err) (stk : stack)
end

/-- The slice type `structures`. -/
abbrev Structures := List Structure

/-- Address of a `*structure`. -/
def Structure.addr : Structure → Addr
  | .mk a _ _ => a

/-- Field `structure.error`. -/
def Structure.error : Structure → Err
  | .mk _ e _ => e

/-- Field `structure.stack`. -/
def Structure.stk : Structure → stack
  | .mk _ _ s => s

/-- `(*structure).Cause`. -/
def Structure.Cause (s : Structure) : Err := s.error

/-- `(*structure).Stack`. -/
def Structure.Stack (s : Structure) : stack := s.stk

/-- `(*structure).Unwrap`. -/
def Structure.Unwrap (s : Structure) : Err := s.error

/-! ## Comparison of error values (`==`) -/

/-- Test `err == nil` on an `error` interface value. -/
def Err.isNil : Err → Bool
  | .nil => true
  | _ => false

/-- Whether the dynamic type of a non-nil error is comparable
(`reflectlite.TypeOf(target).Comparable()`): pointer types are, slice and map types
are not. -/
def Err.comparable : Err → Bool
  | .uncomparable _ => false
  | _ => true

/-- Go `==` on two `error` interface values: both nil, or the same dynamic type
and the same pointer.  The content behind the pointers is not looked at.  Go panics
when both sides hold the same uncomparable type; `errors.Is` never gets there,
because it compares only against a comparable target, and the test is false when
the dynamic types differ. -/
def Err.same : Err → Err → Bool
  | .nil, .nil => true
  | .plain a _, .plain b _ => a == b
  | .wrapper a _ _, .wrapper b _ _ => a == b
  | .joinError a _, .joinError b _ => a == b
  | .node s, .node t => s.addr == t.addr
  | .group a _, .group b _ => a == b
  | _, _ => false

/-! ## The standard `errors` package -/

/-- Standard `errors.New`: a new `*errorString`, allocated at `addr`. -/
def errorsNew (addr : Addr) (text : String) : Err := .plain addr text

/-- Standard `errors.Join`: nil values are discarded; the result is nil when
nothing is left, and otherwise a new `*joinError`, allocated at `addr`. -/
def errorsJoin (addr : Addr) (errs : List Err) : Err :=
  match errs.filter (fun e => !e.isNil) with
  | [] => .nil
  | kept => .joinError addr kept

/-- `(*structures).Unwrap`: the causes of all members, joined by `errors.Join`,
which allocates at `addr`. -/
def Structures.Unwrap (addr : Addr) (s : Structures) : Err :=
  errorsJoin addr (s.map Structure.Unwrap)

mutual
/-- Standard `errors.As`, for a target of one of the pointer types of this package,
given by its assignability test `assign` (which returns the converted value).  The
walk follows `Unwrap() error` and `Unwrap() []error`, depth first, and stops at the
first assignable error.  For a `*structures` the next error is what
`(*structures).Unwrap` returns: nil, which ends the walk, or a `*joinError`
allocated on the spot, which is of no type of this package, so that the walk goes
on over the errors it joins, the non-nil causes of the members
(`errorsAs_group`). -/
def errorsAs {α : Type} (assign : Err → Option α) : Err → Option α
  | .nil => none
  | .plain a m => assign (.plain a m)
  | .uncomparable m => assign (.uncomparable m)
  | .wrapper a m inner =>
    match assign (.wrapper a m inner) with
    | some v => some v
    | none => errorsAs assign inner
  | .joinError a errs =>
    match assign (.joinError a errs) with
    | some v => some v
    | none => errorsAs.each assign errs
  | .node s =>
    match assign (.node s) with
    | some v => some v
    | none => errorsAs.cause assign s
  | .group a ms =>
    match assign (.group a ms) with
    | some v => some v
    | none => errorsAs.causes assign ms
/-- The loop of `errors.As` over the result of an `Unwrap() []error`. -/
def errorsAs.each {α : Type} (assign : Err → Option α) : List Err → Option α
  | [] => none
  | e :: rest =>
    match errorsAs assign e with
    | some v => some v
    | none => errorsAs.each assign rest
/-- Continuation of `errors.As` with `s.Unwrap()` for a `*structure`. -/
def errorsAs.cause {α : Type} (assign : Err → Option α) : Structure → Option α
  | .mk _ e _ => errorsAs assign e
/-- The loop of `errors.As` over the errors joined by `(*structures).Unwrap`. -/
def errorsAs.causes {α : Type} (assign : Err → Option α) : List Structure → Option α
  | [] => none
  | s :: rest =>
    match errorsAs.cause assign s with
    | some v => some v
    | none => errorsAs.causes assign rest
end

/-- Assignability to a target of type `**structure`. -/
def toStructure : Err → Option Structure
  | .node s => some s
  | _ => none

/-- Assignability to a target of type `**structures`. -/
def toStructures : Err → Option Structures
  | .group _ ms => some ms
  | _ => none

mutual
/-- The loop `is` of the standard `errors.Is` for a non-nil target;
`targetComparable` is the flag `errors.Is` computes from the type of the target.
For a `*structures` the next error is what `(*structures).Unwrap` returns: nil,
which ends the walk, or a `*joinError` allocated on the spot, which is therefore
equal to no target, so that the walk goes on over the errors it joins, the non-nil
causes of the members (`errorsIs_walk_group`). -/
def errorsIs.walk (target : Err) (targetComparable : Bool) : Err → Bool
  | .nil => false
  | .plain a m => targetComparable && Err.same (.plain a m) target
  | .uncomparable m => targetComparable && Err.same (.uncomparable m) target
  | .wrapper a m inner =>
    (targetComparable && Err.same (.wrapper a m inner) target) ||
      errorsIs.walk target targetComparable inner
  | .joinError a errs =>
    (targetComparable && Err.same (.joinError a errs) target) ||
      errorsIs.each target targetComparable errs
  | .node s =>
    (targetComparable && Err.same (.node s) target) ||
      errorsIs.cause target targetComparable s
  | .group a ms =>
    (targetComparable && Err.same (.group a ms) target) ||
      errorsIs.causes target targetComparable ms
/-- The loop of `errors.Is` over the result of an `Unwrap() []error`. -/
def errorsIs.each (target : Err) (targetComparable : Bool) : List Err → Bool
  | [] => false
  | e :: rest =>
    errorsIs.walk target targetComparable e || errorsIs.each target targetComparable rest
/-- Continuation of `errors.Is` with `s.Unwrap()` for a `*structure`. -/
def errorsIs.cause (target : Err) (targetComparable : Bool) : Structure → Bool
  | .mk _ e _ => errorsIs.walk target targetComparable e
/-- The loop of `errors.Is` over the errors joined by `(*structures).Unwrap`. -/
def errorsIs.causes (target : Err) (targetComparable : Bool) : List Structure → Bool
  | [] => false
  | s :: rest =>
    errorsIs.cause target targetComparable s || errorsIs.causes target targetComparable rest
end

/-- Standard `errors.Is`: with a nil on either side the answer is `err == target`;
otherwise the walk runs with the comparability of the type of the target. -/
def errorsIs (err target : Err) : Bool :=
  if err.isNil || target.isNil then Err.same err target
  else errorsIs.walk target target.comparable err

/-- Standard `errors.Unwrap`: calls `Unwrap() error` when the value has that
method and returns nil otherwise; `fresh` is the address at which the call
allocates, if it does. -/
def errorsUnwrap (fresh : Addr) : Err → Err
  | .wrapper _ _ inner => inner
  | .node s => s.Unwrap
  | .group _ ms => Structures.Unwrap fresh ms
  | _ => .nil

/-! ## Messages -/

mutual
/-- Method `Error()` of an `error` value; `none` when the call panics. -/
def Err.Error : Err → Option String
  | .nil => none
  | .plain _ m => some m
  | .uncomparable m => some m
  | .wrapper _ m _ => some m
  | .joinError _ errs => joinError.Error errs
  | .node s => Structure.Error s
  | .group _ ms => Structures.Error.loop 0 "" ms
/-- `(*structure).Error`: the message of the cause. -/
def Structure.Error : Structure → Option String
  | .mk _ e _ => Err.Error e
/-- The loop of `(*structures).Error`: `index` is the loop index, `bytes` the
buffer built so far. -/
def Structures.Error.loop : Nat → String → List Structure → Option String
  | _, bytes, [] => some bytes
  | index, bytes, item :: rest =>
    match Structure.Error item with
    | none => none
    | some m =>
      Structures.Error.loop (index + 1)
        ((if index > 0 then bytes ++ "\n" else bytes) ++ m) rest
/-- Standard `(*joinError).Error`: the messages separated by a newline. -/
def joinError.Error : List Err → Option String
  | [] => none
  | e :: rest =>
    match Err.Error e with
    | none => none
    | some m => joinError.Error.tail m rest
/-- The loop of `(*joinError).Error` over `e.errs[1:]`. -/
def joinError.Error.tail : String → List Err → Option String
  | b, [] => some b
  | b, e :: rest =>
    match Err.Error e with
    | none => none
    | some m => joinError.Error.tail (b ++ "\n" ++ m) rest
end

/-! ## The package API -/

/-- `New`: a `*structure`, allocated at `atNode`, around `errors.New(cause)`,
allocated at `atText`, with the stack captured by `callers()`. -/
def New (cause : String) (atText atNode : Addr) (callers : stack) : Err :=
  .node (.mk atNode (errorsNew atText cause) callers)

/-- `Wrap`: the `*structure` found by `errors.As` when there is one, otherwise a
new `*structure`, allocated at `atNode`, around the argument with the stack
captured by `callers()`. -/
def Wrap (error : Err) (atNode : Addr) (callers : stack) : Err :=
  match errorsAs toStructure error with
  | some origin => .node origin
  | none => .node (.mk atNode error callers)

/-- The loop of `Join`, from position `index` on; `atNode index` is the address of
the `*structure` allocated for the cause at that position and `callers index` the
stack `callers()` captures for it. -/
def Join.loop (atNode : Nat → Addr) (callers : Nat → stack) : Nat → List Err → Structures
  | _, [] => []
  | index, cause :: rest =>
    (match errorsAs toStructure cause with
      | some origin => origin
      | none => .mk (atNode index) cause (callers index)) ::
        Join.loop atNode callers (index + 1) rest

/-- `Join`: one member per argument, in argument order; `atList` is the address of
the slice variable whose pointer is returned. -/
def Join (causes : List Err) (atList : Addr) (atNode : Nat → Addr)
    (callers : Nat → stack) : Err :=
  .group atList (Join.loop atNode callers 0 causes)

/-- `Track`: the stack traces found, and whether the error is annotated. -/
def Track (cause : Err) : List StackTrace × Bool :=
  match errorsAs toStructure cause with
  | some item => ([item.Stack.StackTrace], true)
  | none =>
    match errorsAs toStructures cause with
    | some list => (list.map (fun m => m.Stack.StackTrace), true)
    | none => ([], false)

/-- `Unwrap`; `fresh` is the address at which the call allocates, if it does. -/
def Unwrap (cause : Err) (fresh : Addr) : Err := errorsUnwrap fresh cause

/-- `Is`. -/
def Is (cause target : Err) : Bool := errorsIs cause target

/-! ## Predicates used to state the properties -/

mutual
/-- Whether an Annotated-Error or an Annotated-Error-Group occurs anywhere in the
chain of an error. -/
def Err.annotated : Err → Bool
  | .nil => false
  | .plain _ _ => false
  | .uncomparable _ => false
  | .wrapper _ _ inner => Err.annotated inner
  | .joinError _ errs => Err.annotatedAny errs
  | .node _ => true
  | .group _ _ => true
/-- Whether some error of the list is annotated. -/
def Err.annotatedAny : List Err → Bool
  | [] => false
  | e :: rest => Err.annotated e || Err.annotatedAny rest
end

mutual
/-- The one-stack property read literally: no Annotated-Error, standalone or
member of a group, has an Annotated-Error or a group anywhere beneath its cause. -/
def Err.oneStack : Err → Bool
  | .nil => true
  | .plain _ _ => true
  | .uncomparable _ => true
  | .wrapper _ _ inner => Err.oneStack inner
  | .joinError _ errs => Err.oneStackAll errs
  | .node s => Structure.oneStack s
  | .group _ ms => Structure.oneStackAll ms
/-- The one-stack property of every error of a list. -/
def Err.oneStackAll : List Err → Bool
  | [] => true
  | e :: rest => Err.oneStack e && Err.oneStackAll rest
/-- The one-stack property of a single Annotated-Error. -/
def Structure.oneStack : Structure → Bool
  | .mk _ e _ => !Err.annotated e && Err.oneStack e
/-- The one-stack property of every member of a group. -/
def Structure.oneStackAll : List Structure → Bool
  | [] => true
  | s :: rest => Structure.oneStack s && Structure.oneStackAll rest
end

mutual
/-- The invariant the package does maintain: beneath the cause of an
Annotated-Error, standalone or member of a group, chain inspection with
`errors.As` finds no Annotated-Error. -/
def Err.inv : Err → Bool
  | .nil => true
  | .plain _ _ => true
  | .uncomparable _ => true
  | .wrapper _ _ inner => Err.inv inner
  | .joinError _ errs => Err.invAll errs
  | .node s => Structure.inv s
  | .group _ ms => Structure.invAll ms
/-- The invariant for every error of a list. -/
def Err.invAll : List Err → Bool
  | [] => true
  | e :: rest => Err.inv e && Err.invAll rest
/-- The invariant for a single Annotated-Error. -/
def Structure.inv : Structure → Bool
  | .mk _ e _ => (errorsAs toStructure e).isNone && Err.inv e
/-- The invariant for every member of a group. -/
def Structure.invAll : List Structure → Bool
  | [] => true
  | s :: rest => Structure.inv s && Structure.invAll rest
end

/-- The error values a program can hold: nil, errors of other packages (possibly
wrapping or joining values of this package), and whatever `New`, `Wrap` and `Join`
return on such values. -/
inductive Built : Err → Prop
  | nil : Built .nil
  | plain (addr : Addr) (msg : String) : Built (.plain addr msg)
  | uncomparable (msg : String) : Built (.uncomparable msg)
  | wrapper (addr : Addr) (msg : String) (inner : Err) :
      Built inner → Built (.wrapper addr msg inner)
  | joined (addr : Addr) (errs : List Err) :
      (∀ e ∈ errs, Built e) → Built (.joinError addr errs)
  | new (cause : String) (atText atNode : Addr) (callers : stack) :
      Built (New cause atText atNode callers)
  | wrap (error : Err) (atNode : Addr) (callers : stack) :
      Built error → Built (Wrap error atNode callers)
  | join (causes : List Err) (atList : Addr) (atNode : Nat → Addr) (callers : Nat → stack) :
      (∀ e ∈ causes, Built e) → Built (Join causes atList atNode callers)

/-- An error that is itself a value returned by `New`, `Wrap` or `Join`. -/
def Returned (e : Err) : Prop :=
  (∃ cause atText atNode callers, e = New cause atText atNode callers) ∨
  (∃ error atNode callers, Built error ∧ e = Wrap error atNode callers) ∨
  (∃ causes atList atNode callers,
    (∀ c ∈ causes, Built c) ∧ e = Join causes atList atNode callers)

/-! ## Chain inspection -/

theorem Err.isNil_iff (e : Err) : e.isNil = true ↔ e = .nil := by
  cases e <;> simp [Err.isNil]

theorem errorsAs_each_filter {α : Type} (assign : Err → Option α) :
    ∀ errs : List Err,
      errorsAs.each assign (errs.filter (fun e => !e.isNil)) = errorsAs.each assign errs
  | [] => by simp
  | e :: rest => by
    have ih := errorsAs_each_filter assign rest
    cases h : e.isNil with
    | true =>
      have he : e = .nil := (Err.isNil_iff e).1 h
      rw [List.filter_cons_of_neg (by simp [h]), ih]
      subst he
      simp [errorsAs.each, errorsAs]
    | false =>
      rw [List.filter_cons_of_pos (by simp [h])]
      simp only [errorsAs.each, ih]

theorem errorsAs_each_causes {α : Type} (assign : Err → Option α) :
    ∀ ms : List Structure,
      errorsAs.each assign (ms.map Structure.Unwrap) = errorsAs.causes assign ms
  | [] => by simp [errorsAs.each, errorsAs.causes]
  | .mk a e st :: rest => by
    simp [errorsAs.each, errorsAs.causes, errorsAs.cause, Structure.Unwrap, Structure.error,
      errorsAs_each_causes assign rest]

/-- The embedding of `errors.As` at a group walks exactly the error that
`(*structures).Unwrap` returns, at whatever address `errors.Join` allocates it, for
every target type to which a `*joinError` is not assignable. -/
theorem errorsAs_group {α : Type} (assign : Err → Option α)
    (hj : ∀ a es, assign (.joinError a es) = none)
    (fresh addr : Addr) (ms : List Structure) :
    errorsAs assign (.group addr ms) =
      match assign (.group addr ms) with
      | some v => some v
      | none => errorsAs assign (Structures.Unwrap fresh ms) := by
  rw [errorsAs]
  cases assign (.group addr ms) with
  | some v => rfl
  | none =>
    simp only
    unfold Structures.Unwrap errorsJoin
    cases h : (ms.map Structure.Unwrap).filter (fun e => !e.isNil) with
    | nil =>
      have := errorsAs_each_filter assign (ms.map Structure.Unwrap)
      rw [h, errorsAs_each_causes] at this
      simp only [errorsAs]
      rw [← this]
      rfl
    | cons x rest =>
      simp only [errorsAs, hj]
      rw [← h, errorsAs_each_filter, errorsAs_each_causes]

/-- For the target `**structure` of `Wrap`, `Join` and `Track`, the walk at a group
is the walk of what `(*structures).Unwrap` returns, wherever it is allocated. -/
theorem asStructure_group_walk (fresh addr : Addr) (ms : List Structure) :
    errorsAs toStructure (.group addr ms) =
      errorsAs toStructure (Structures.Unwrap fresh ms) := by
  rw [errorsAs_group toStructure (fun _ _ => rfl) fresh addr ms]
  rfl

/-- For the target `**structures` of `Track`, the walk stops at a group itself. -/
theorem asStructures_group_walk (fresh addr : Addr) (ms : List Structure) :
    errorsAs toStructures (.group addr ms) = some ms := by
  rw [errorsAs_group toStructures (fun _ _ => rfl) fresh addr ms]
  rfl

mutual
theorem errorsAs_of_not_annotated {α : Type} (assign : Err → Option α)
    (hn : ∀ a m, assign (.plain a m) = none) (hu : ∀ m, assign (.uncomparable m) = none)
    (hw : ∀ a m i, assign (.wrapper a m i) = none)
    (hj : ∀ a es, assign (.joinError a es) = none) :
    ∀ e : Err, e.annotated = false → errorsAs assign e = none
  | .nil, _ => by simp [errorsAs]
  | .plain a m, _ => by simp [errorsAs, hn]
  | .uncomparable m, _ => by simp [errorsAs, hu]
  | .wrapper a m inner, h => by
    simp only [Err.annotated] at h
    simp [errorsAs, hw, errorsAs_of_not_annotated assign hn hu hw hj inner h]
  | .joinError a errs, h => by
    simp only [Err.annotated] at h
    simp [errorsAs, hj, errorsAs_each_of_not_annotated assign hn hu hw hj errs h]
  | .node s, h => by simp [Err.annotated] at h
  | .group a ms, h => by simp [Err.annotated] at h
theorem errorsAs_each_of_not_annotated {α : Type} (assign : Err → Option α)
    (hn : ∀ a m, assign (.plain a m) = none) (hu : ∀ m, assign (.uncomparable m) = none)
    (hw : ∀ a m i, assign (.wrapper a m i) = none)
    (hj : ∀ a es, assign (.joinError a es) = none) :
    ∀ errs : List Err, Err.annotatedAny errs = false → errorsAs.each assign errs = none
  | [], _ => by simp [errorsAs.each]
  | e :: rest, h => by
    simp only [Err.annotatedAny, Bool.or_eq_false_iff] at h
    simp [errorsAs.each, errorsAs_of_not_annotated assign hn hu hw hj e h.1,
      errorsAs_each_of_not_annotated assign hn hu hw hj rest h.2]
end

/-- Chain inspection for a `*structure` target skips a group itself and looks
beneath the causes of its members. -/
theorem asStructure_group (addr : Addr) (ms : List Structure) :
    errorsAs toStructure (.group addr ms) = errorsAs.causes toStructure ms := by
  simp [errorsAs, toStructure]

theorem asStructure_causes_of_inv :
    ∀ ms : List Structure, Structure.invAll ms = true → errorsAs.causes toStructure ms = none
  | [], _ => by simp [errorsAs.causes]
  | .mk a e st :: rest, h => by
    simp only [Structure.invAll, Structure.inv, Bool.and_eq_true, Option.isNone_iff_eq_none] at h
    simp [errorsAs.causes, errorsAs.cause, h.1.1, asStructure_causes_of_inv rest h.2]

/-- Under the invariant, chain inspection finds no Annotated-Error in a group. -/
theorem asStructure_group_of_inv (addr : Addr) (ms : List Structure)
    (h : Err.inv (.group addr ms) = true) :
    errorsAs toStructure (.group addr ms) = none := by
  rw [asStructure_group]
  exact asStructure_causes_of_inv ms (by simpa [Err.inv] using h)

mutual
/-- Under the invariant, the Annotated-Error found by chain inspection satisfies
the invariant itself. -/
theorem asStructure_inv :
    ∀ e : Err, e.inv = true → ∀ s, errorsAs toStructure e = some s → s.inv = true
  | .nil, _, s, hs => by simp [errorsAs] at hs
  | .plain a m, _, s, hs => by simp [errorsAs, toStructure] at hs
  | .uncomparable m, _, s, hs => by simp [errorsAs, toStructure] at hs
  | .wrapper a m inner, h, s, hs => by
    simp only [errorsAs, toStructure] at hs
    exact asStructure_inv inner (by simpa [Err.inv] using h) s hs
  | .joinError a errs, h, s, hs => by
    simp only [errorsAs, toStructure] at hs
    exact asStructure_each_inv errs (by simpa [Err.inv] using h) s hs
  | .node t, h, s, hs => by
    simp only [errorsAs, toStructure, Option.some.injEq] at hs
    subst hs
    simpa [Err.inv] using h
  | .group a ms, h, s, hs => by
    rw [asStructure_group_of_inv a ms h] at hs
    simp at hs
theorem asStructure_each_inv :
    ∀ errs : List Err, Err.invAll errs = true →
      ∀ s, errorsAs.each toStructure errs = some s → s.inv = true
  | [], _, s, hs => by simp [errorsAs.each] at hs
  | e :: rest, h, s, hs => by
    simp only [Err.invAll, Bool.and_eq_true] at h
    simp only [errorsAs.each] at hs
    cases he : errorsAs toStructure e with
    | some v =>
      rw [he] at hs
      simp only [Option.some.injEq] at hs
      subst hs
      exact asStructure_inv e h.1 v he
    | none =>
      rw [he] at hs
      exact asStructure_each_inv rest h.2 s hs
end

theorem invAll_of_forall : ∀ errs : List Err, (∀ e ∈ errs, e.inv = true) → Err.invAll errs = true
  | [], _ => by simp [Err.invAll]
  | e :: rest, h => by
    simp only [Err.invAll, Bool.and_eq_true]
    exact ⟨h e (by simp), invAll_of_forall rest (fun x hx => h x (by simp [hx]))⟩

/-- The member `Join` builds for one cause satisfies the invariant. -/
theorem member_inv (cause : Err) (addr : Addr) (st : stack) (h : cause.inv = true) :
    Structure.inv (match errorsAs toStructure cause with
      | some origin => origin
      | none => .mk addr cause st) = true := by
  cases he : errorsAs toStructure cause with
  | some v => exact asStructure_inv cause h v he
  | none => simp [Structure.inv, he, h]

theorem Join_loop_inv (atNode : Nat → Addr) (callers : Nat → stack) :
    ∀ (causes : List Err) (index : Nat), (∀ e ∈ causes, e.inv = true) →
      Structure.invAll (Join.loop atNode callers index causes) = true
  | [], _, _ => by simp [Join.loop, Structure.invAll]
  | c :: rest, index, h => by
    simp only [Join.loop, Structure.invAll, Bool.and_eq_true]
    exact ⟨member_inv c (atNode index) (callers index) (h c (by simp)),
      Join_loop_inv atNode callers rest (index + 1) (fun x hx => h x (by simp [hx]))⟩

/-- Every value built with `New`, `Wrap` and `Join` satisfies the invariant. -/
theorem Built.inv_holds {e : Err} (h : Built e) : e.inv = true := by
  induction h with
  | nil => rfl
  | plain addr msg => rfl
  | uncomparable msg => rfl
  | wrapper addr msg inner _ ih => simpa [Err.inv] using ih
  | joined addr errs _ ih => simpa [Err.inv] using invAll_of_forall errs ih
  | new cause atText atNode callers => rfl
  | wrap error atNode callers _ ih =>
    have := member_inv error atNode callers ih
    unfold Wrap
    cases he : errorsAs toStructure error with
    | some v => simpa [Err.inv, he] using this
    | none => simpa [Err.inv, he] using this
  | join causes atList atNode callers _ ih =>
    simpa [Join, Err.inv] using Join_loop_inv atNode callers causes 0 ih

/-! ## Messages of a group -/

theorem mapM_cons_option {α β : Type} (f : α → Option β) (a : α) (rest : List α) :
    (a :: rest).mapM f =
      match f a with
      | none => none
      | some b => (rest.mapM f).map (fun l => b :: l) := by
  rw [List.mapM_cons]
  cases f a with
  | none => rfl
  | some b => cases rest.mapM f <;> rfl

theorem mapM_nil_option {α β : Type} (f : α → Option β) :
    ([] : List α).mapM f = some [] := by
  rw [List.mapM_nil]
  rfl

theorem mapM_none_of_mem {α β : Type} (f : α → Option β) :
    ∀ (l : List α) (x : α), x ∈ l → f x = none → l.mapM f = none
  | [], _, h, _ => by simp at h
  | a :: rest, x, h, hx => by
    rw [mapM_cons_option]
    simp only [List.mem_cons] at h
    rcases h with rfl | h
    · rw [hx]
    · cases f a with
      | none => rfl
      | some b => rw [mapM_none_of_mem f rest x h hx]; rfl

theorem Structures_Error_loop_pos :
    ∀ (ms : List Structure) (index : Nat) (bytes : String), 0 < index →
      Structures.Error.loop index bytes ms =
        (ms.mapM Structure.Error).map (fun l => String.intercalate.go bytes "\n" l)
  | [], _, _, _ => by
    rw [mapM_nil_option]
    simp [Structures.Error.loop, String.intercalate.go]
  | item :: rest, index, bytes, h => by
    rw [Structures.Error.loop, mapM_cons_option]
    cases hm : Structure.Error item with
    | none => rfl
    | some m =>
      simp only [gt_iff_lt, h, if_true]
      rw [Structures_Error_loop_pos rest (index + 1) _ (Nat.succ_pos _)]
      cases rest.mapM Structure.Error with
      | none => rfl
      | some l => simp [String.intercalate.go]

theorem Structures_Error_eq (ms : List Structure) :
    Structures.Error.loop 0 "" ms =
      (ms.mapM Structure.Error).map (String.intercalate "\n") := by
  cases ms with
  | nil =>
    rw [mapM_nil_option]
    simp [Structures.Error.loop, String.intercalate]
  | cons item rest =>
    rw [Structures.Error.loop, mapM_cons_option]
    cases hm : Structure.Error item with
    | none => rfl
    | some m =>
      simp only [gt_iff_lt, Nat.lt_irrefl, if_false, Nat.zero_add, String.empty_append]
      rw [Structures_Error_loop_pos rest 1 _ Nat.one_pos]
      cases rest.mapM Structure.Error with
      | none => rfl
      | some l => simp [String.intercalate]

/-! ## Lemmas on the loop of Join -/

theorem Join_loop_length (atNode : Nat → Addr) (callers : Nat → stack) :
    ∀ (causes : List Err) (index : Nat),
      (Join.loop atNode callers index causes).length = causes.length
  | [], _ => rfl
  | c :: rest, index => by
    simp [Join.loop, Join_loop_length atNode callers rest (index + 1)]

theorem Join_loop_get (atNode : Nat → Addr) (callers : Nat → stack) :
    ∀ (causes : List Err) (index i : Nat) (c : Err), causes[i]? = some c →
      (Join.loop atNode callers index causes)[i]? =
        some (match errorsAs toStructure c with
          | some origin => origin
          | none => .mk (atNode (index + i)) c (callers (index + i)))
  | [], _, _, _, h => by simp at h
  | x :: rest, index, 0, c, h => by
    simp only [List.getElem?_cons_zero, Option.some.injEq] at h
    subst h
    simp [Join.loop]
  | x :: rest, index, i + 1, c, h => by
    simp only [List.getElem?_cons_succ] at h
    have := Join_loop_get atNode callers rest (index + 1) i c h
    simp only [Join.loop, List.getElem?_cons_succ, this]
    rw [show index + 1 + i = index + (i + 1) by omega]

/-- The member built for a cause that is unannotated, or was itself returned by the
package, has the message of that cause. -/
theorem member_Error (cause : Err) (addr : Addr) (st : stack)
    (h : errorsAs toStructure cause = none ∨ Returned cause) :
    Structure.Error (match errorsAs toStructure cause with
      | some origin => origin
      | none => .mk addr cause st) = cause.Error := by
  have plainCase : errorsAs toStructure cause = none →
      Structure.Error (match errorsAs toStructure cause with
        | some origin => origin
        | none => .mk addr cause st) = cause.Error := by
    intro hn
    rw [hn]
    simp [Structure.Error]
  have nodeCase : ∀ s, cause = .node s →
      Structure.Error (match errorsAs toStructure cause with
        | some origin => origin
        | none => .mk addr cause st) = cause.Error := by
    intro s hs
    subst hs
    simp [errorsAs, toStructure, Err.Error]
  rcases h with hn | ⟨m, t, n, s0, rfl⟩ | ⟨x, n, s0, _, rfl⟩ | ⟨xs, l, ns, cs, hb, rfl⟩
  · exact plainCase hn
  · exact nodeCase _ rfl
  · cases hx : errorsAs toStructure x with
    | some v => exact nodeCase v (by simp [Wrap, hx])
    | none => exact nodeCase (.mk n x s0) (by simp [Wrap, hx])
  · exact plainCase (asStructure_group_of_inv _ _ (Built.inv_holds (Built.join xs l ns cs hb)))

theorem Join_loop_messages (atNode : Nat → Addr) (callers : Nat → stack) :
    ∀ (causes : List Err) (index : Nat),
      (∀ e ∈ causes, errorsAs toStructure e = none ∨ Returned e) →
      (Join.loop atNode callers index causes).mapM Structure.Error = causes.mapM Err.Error
  | [], _, _ => by rw [Join.loop, mapM_nil_option, mapM_nil_option]
  | c :: rest, index, h => by
    rw [Join.loop, mapM_cons_option, mapM_cons_option,
      member_Error c (atNode index) (callers index) (h c (by simp)),
      Join_loop_messages atNode callers rest (index + 1) (fun x hx => h x (by simp [hx]))]

/-! ## Lemmas on comparison and on errors.Is -/

/-- A non-nil error of comparable type is `==` to itself. -/
theorem Err_same_refl (e : Err) (h : e.isNil = false) (hc : e.comparable = true) :
    Err.same e e = true := by
  cases e <;> simp_all [Err.same, Err.isNil, Err.comparable]

/-- The loop of `errors.Is` stops at once on a comparable target itself. -/
theorem errorsIs_walk_self (e : Err) (h : e.isNil = false) (hc : e.comparable = true) :
    errorsIs.walk e true e = true := by
  have hs := Err_same_refl e h hc
  cases e with
  | nil => simp [Err.isNil] at h
  | plain a m => simpa [errorsIs.walk] using hs
  | uncomparable m => simp [Err.comparable] at hc
  | wrapper a m inner => simp [errorsIs.walk, hs]
  | joinError a errs => simp [errorsIs.walk, hs]
  | node s => simp [errorsIs.walk, hs]
  | group a ms => simp [errorsIs.walk, hs]

theorem errorsIs_each_mem (target : Err) (h : target.isNil = false)
    (hc : target.comparable = true) :
    ∀ errs : List Err, target ∈ errs → errorsIs.each target true errs = true
  | [], hm => by simp at hm
  | e :: rest, hm => by
    simp only [List.mem_cons] at hm
    simp only [errorsIs.each, Bool.or_eq_true]
    rcases hm with rfl | hm
    · exact Or.inl (errorsIs_walk_self _ h hc)
    · exact Or.inr (errorsIs_each_mem target h hc rest hm)

mutual
/-- Against a target of uncomparable type the loop of `errors.Is` never compares
and finds nothing. -/
theorem errorsIs_walk_uncomparable (target : Err) :
    ∀ e : Err, errorsIs.walk target false e = false
  | .nil => by simp [errorsIs.walk]
  | .plain a m => by simp [errorsIs.walk]
  | .uncomparable m => by simp [errorsIs.walk]
  | .wrapper a m inner => by
    simp [errorsIs.walk, errorsIs_walk_uncomparable target inner]
  | .joinError a errs => by
    simp [errorsIs.walk, errorsIs_each_uncomparable target errs]
  | .node (.mk a e st) => by
    simp [errorsIs.walk, errorsIs.cause, errorsIs_walk_uncomparable target e]
  | .group a ms => by
    simp [errorsIs.walk, errorsIs_causes_uncomparable target ms]
theorem errorsIs_each_uncomparable (target : Err) :
    ∀ errs : List Err, errorsIs.each target false errs = false
  | [] => by simp [errorsIs.each]
  | e :: rest => by
    simp [errorsIs.each, errorsIs_walk_uncomparable target e,
      errorsIs_each_uncomparable target rest]
theorem errorsIs_causes_uncomparable (target : Err) :
    ∀ ms : List Structure, errorsIs.causes target false ms = false
  | [] => by simp [errorsIs.causes]
  | .mk a e st :: rest => by
    simp [errorsIs.causes, errorsIs.cause, errorsIs_walk_uncomparable target e,
      errorsIs_causes_uncomparable target rest]
end

/-- Standard `errors.Is` finds a non-nil error that was handed to `errors.Join`
exactly when its type is comparable. -/
theorem errorsIs_errorsJoin (fresh : Addr) (errs : List Err) (target : Err)
    (h : target.isNil = false) (hm : target ∈ errs) :
    errorsIs (errorsJoin fresh errs) target = target.comparable := by
  have hk : target ∈ errs.filter (fun e => !e.isNil) := by
    simp [List.mem_filter, hm, h]
  unfold errorsJoin
  cases hf : errs.filter (fun e => !e.isNil) with
  | nil => simp [hf] at hk
  | cons x rest =>
    have hj : (Err.joinError fresh (x :: rest)).isNil = false := rfl
    simp only [errorsIs, hj, h, Bool.false_or, Bool.false_eq_true, if_false]
    cases hc : target.comparable with
    | false => exact errorsIs_walk_uncomparable target _
    | true =>
      simp only [errorsIs.walk, Bool.true_and, Bool.or_eq_true]
      exact Or.inr (errorsIs_each_mem target h hc _ (hf ▸ hk))

theorem errorsIs_each_filter (target : Err) (c : Bool) :
    ∀ errs : List Err,
      errorsIs.each target c (errs.filter (fun e => !e.isNil)) = errorsIs.each target c errs
  | [] => by simp
  | e :: rest => by
    have ih := errorsIs_each_filter target c rest
    cases h : e.isNil with
    | true =>
      have he : e = .nil := (Err.isNil_iff e).1 h
      rw [List.filter_cons_of_neg (by simp [h]), ih]
      subst he
      simp [errorsIs.each, errorsIs.walk]
    | false =>
      rw [List.filter_cons_of_pos (by simp [h])]
      simp only [errorsIs.each, ih]

theorem errorsIs_each_causes (target : Err) (c : Bool) :
    ∀ ms : List Structure,
      errorsIs.each target c (ms.map Structure.Unwrap) = errorsIs.causes target c ms
  | [] => by simp [errorsIs.each, errorsIs.causes]
  | .mk a e st :: rest => by
    simp [errorsIs.each, errorsIs.causes, errorsIs.cause, Structure.Unwrap, Structure.error,
      errorsIs_each_causes target c rest]

/-- The embedding of the loop of `errors.Is` at a group walks exactly the error that
`(*structures).Unwrap` returns, allocated at an address `fresh` that is not the
address of the target. -/
theorem errorsIs_walk_group (target : Err) (c : Bool) (fresh addr : Addr)
    (ms : List Structure) (hf : ∀ es, Err.same (.joinError fresh es) target = false) :
    errorsIs.walk target c (.group addr ms) =
      ((c && Err.same (.group addr ms) target) ||
        errorsIs.walk target c (Structures.Unwrap fresh ms)) := by
  rw [errorsIs.walk]
  congr 1
  unfold Structures.Unwrap errorsJoin
  cases h : (ms.map Structure.Unwrap).filter (fun e => !e.isNil) with
  | nil =>
    have := errorsIs_each_filter target c (ms.map Structure.Unwrap)
    rw [h, errorsIs_each_causes] at this
    simp only [errorsIs.walk]
    rw [← this]
    rfl
  | cons x rest =>
    simp only [errorsIs.walk, hf, Bool.and_false, Bool.false_or]
    rw [← h, errorsIs_each_filter, errorsIs_each_causes]

/-- On every group built by the package, Wrap finds no Annotated-Error and wraps the
whole group in a new node with the stack of a new capture. -/
theorem Wrap_Join_wraps (causes : List Err) (atList : Addr) (atNodes : Nat → Addr)
    (atJoin : Nat → stack) (atNode : Addr) (callers : stack)
    (h : ∀ c ∈ causes, Built c) :
    Wrap (Join causes atList atNodes atJoin) atNode callers =
      .node (.mk atNode (Join causes atList atNodes atJoin) callers) := by
  have hn : errorsAs toStructure (Join causes atList atNodes atJoin) = none :=
    asStructure_group_of_inv _ _ (Built.inv_holds (Built.join causes atList atNodes atJoin h))
  simp [Wrap, hn]

/-! ## Properties of New, Wrap, Join, Track and Unwrap -/

/-- C1: for every message, with the error returned by New, Wrap returns that very
node and so does Wrap of Wrap: the result sits at the address New allocated and is
equal to the error of New under pointer comparison, whereas a copy placed at the
address handed to a Wrap would be a different pointer; the result carries the stack
captured by New, whatever stack a capture inside either Wrap would have produced,
and its message is the message given to New. -/
theorem Wrap_New_same_node (m : String) (atText atNode atWrap1 atWrap2 : Addr)
    (atNew s1 s2 : stack) :
    Wrap (New m atText atNode atNew) atWrap1 s1 = New m atText atNode atNew ∧
    Wrap (Wrap (New m atText atNode atNew) atWrap1 s1) atWrap2 s2 =
      New m atText atNode atNew ∧
    Err.same (Wrap (New m atText atNode atNew) atWrap1 s1)
      (New m atText atNode atNew) = true ∧
    Err.same (Wrap (Wrap (New m atText atNode atNew) atWrap1 s1) atWrap2 s2)
      (New m atText atNode atNew) = true ∧
    (toStructure (Wrap (Wrap (New m atText atNode atNew) atWrap1 s1) atWrap2 s2)).map
      Structure.addr = some atNode ∧
    (toStructure (Wrap (Wrap (New m atText atNode atNew) atWrap1 s1) atWrap2 s2)).map
      Structure.Stack = some atNew ∧
    (atWrap1 ≠ atNode →
      Wrap (New m atText atNode atNew) atWrap1 s1 ≠
        .node (.mk atWrap1 (errorsNew atText m) atNew) ∧
      Err.same (.node (.mk atWrap1 (errorsNew atText m) atNew))
        (New m atText atNode atNew) = false) ∧
    (atWrap2 ≠ atNode →
      Wrap (Wrap (New m atText atNode atNew) atWrap1 s1) atWrap2 s2 ≠
        .node (.mk atWrap2 (errorsNew atText m) atNew) ∧
      Err.same (.node (.mk atWrap2 (errorsNew atText m) atNew))
        (New m atText atNode atNew) = false) ∧
    Track (Wrap (Wrap (New m atText atNode atNew) atWrap1 s1) atWrap2 s2) =
      ([atNew.StackTrace], true) ∧
    (Wrap (Wrap (New m atText atNode atNew) atWrap1 s1) atWrap2 s2).Error = some m := by
  have h1 : Wrap (New m atText atNode atNew) atWrap1 s1 = New m atText atNode atNew := rfl
  have h2 : Wrap (Wrap (New m atText atNode atNew) atWrap1 s1) atWrap2 s2 =
      New m atText atNode atNew := rfl
  have hcopy : ∀ a : Addr, a ≠ atNode →
      New m atText atNode atNew ≠ .node (.mk a (errorsNew atText m) atNew) ∧
      Err.same (.node (.mk a (errorsNew atText m) atNew))
        (New m atText atNode atNew) = false := by
    intro a ha
    constructor
    · intro h
      simp only [New, Err.node.injEq, Structure.mk.injEq] at h
      exact ha h.1.symm
    · simpa [Err.same, New, Structure.addr] using ha
  refine ⟨h1, h2, ?_, ?_, rfl, rfl, ?_, ?_, rfl, rfl⟩
  · rw [h1]
    simp [Err.same, New, Structure.addr]
  · rw [h2]
    simp [Err.same, New, Structure.addr]
  · intro ha
    rw [h1]
    exact hcopy atWrap1 ha
  · intro ha
    rw [h2]
    exact hcopy atWrap2 ha

/-- Instance of C1 with the node of New at address 11 and the two Wraps handed the
addresses 12 and 13. -/
theorem Wrap_New_same_node_witness :
    Wrap (Wrap (New "boom" 10 11 ⟨[1]⟩) 12 ⟨[2]⟩) 13 ⟨[3]⟩ = New "boom" 10 11 ⟨[1]⟩ ∧
    Wrap (New "boom" 10 11 ⟨[1]⟩) 12 ⟨[2]⟩ ≠ .node (.mk 12 (errorsNew 10 "boom") ⟨[1]⟩) ∧
    Wrap (Wrap (New "boom" 10 11 ⟨[1]⟩) 12 ⟨[2]⟩) 13 ⟨[3]⟩ ≠
      .node (.mk 13 (errorsNew 10 "boom") ⟨[1]⟩) :=
  ⟨(Wrap_New_same_node "boom" 10 11 12 13 ⟨[1]⟩ ⟨[2]⟩ ⟨[3]⟩).2.1,
   ((Wrap_New_same_node "boom" 10 11 12 13 ⟨[1]⟩ ⟨[2]⟩ ⟨[3]⟩).2.2.2.2.2.2.1 (by decide)).1,
   ((Wrap_New_same_node "boom" 10 11 12 13 ⟨[1]⟩ ⟨[2]⟩ ⟨[3]⟩).2.2.2.2.2.2.2.1 (by decide)).1⟩

/-- C2: on a group returned by Join, Wrap does capture a new stack: it returns a
fresh Annotated-Error whose cause is the whole group, so the literal one-stack
property fails and Track reports the new stack instead of the stack of the member;
Join applied to the group wraps it in a fresh member in the same way. -/
theorem Wrap_group_captures_again (m : String) (atText atNode atList atWrap atList2 : Addr)
    (atNodes atNodes2 : Nat → Addr) (atNew callers : stack) (atJoin atJoin2 : Nat → stack) :
    Wrap (Join [New m atText atNode atNew] atList atNodes atJoin) atWrap callers =
      .node (.mk atWrap (.group atList [.mk atNode (.plain atText m) atNew]) callers) ∧
    Err.oneStack
      (Wrap (Join [New m atText atNode atNew] atList atNodes atJoin) atWrap callers) = false ∧
    Track (Wrap (Join [New m atText atNode atNew] atList atNodes atJoin) atWrap callers) =
      ([callers.StackTrace], true) ∧
    Join [Join [New m atText atNode atNew] atList atNodes atJoin] atList2 atNodes2 atJoin2 =
      .group atList2
        [.mk (atNodes2 0) (.group atList [.mk atNode (.plain atText m) atNew]) (atJoin2 0)] ∧
    Err.oneStack
      (Join [Join [New m atText atNode atNew] atList atNodes atJoin] atList2 atNodes2 atJoin2) =
        false := by
  refine ⟨rfl, rfl, rfl, rfl, rfl⟩

/-- C3, refuted as stated: a non-nil wrapper of another package around an error
returned by New has the message "ctx: boom", but Wrap of it has the message
"boom". -/
theorem Wrap_drops_outer_message :
    (Err.wrapper 3 "ctx: boom" (New "boom" 1 2 ⟨[1]⟩)).isNil = false ∧
    (Err.wrapper 3 "ctx: boom" (New "boom" 1 2 ⟨[1]⟩)).Error = some "ctx: boom" ∧
    (Wrap (Err.wrapper 3 "ctx: boom" (New "boom" 1 2 ⟨[1]⟩)) 4 ⟨[2]⟩).Error = some "boom" ∧
    (Wrap (Err.wrapper 3 "ctx: boom" (New "boom" 1 2 ⟨[1]⟩)) 4 ⟨[2]⟩).Error ≠
      (Err.wrapper 3 "ctx: boom" (New "boom" 1 2 ⟨[1]⟩)).Error := by
  refine ⟨rfl, rfl, rfl, ?_⟩
  decide

/-- C3, amended: Wrap preserves the message of every error in whose chain no
Annotated-Error is found and of every error that is itself an Annotated-Error; when
an Annotated-Error is found in the chain, Wrap returns that node and the message
is the message of the cause of that node. -/
theorem Wrap_Error_preserved (e : Err) (atNode : Addr) (callers : stack) :
    ((errorsAs toStructure e = none ∨ ∃ s, e = .node s) →
      (Wrap e atNode callers).Error = e.Error) ∧
    (∀ origin, errorsAs toStructure e = some origin →
      Wrap e atNode callers = .node origin ∧
      (Wrap e atNode callers).Error = origin.Cause.Error) := by
  constructor
  · rintro (h | ⟨s, rfl⟩)
    · simp [Wrap, h, Err.Error, Structure.Error]
    · simp [Wrap, errorsAs, toStructure]
  · intro origin h
    cases origin with
    | mk a c st => simp [Wrap, h, Err.Error, Structure.Error, Structure.Cause, Structure.error]

/-- Instance of the amended C3 at a plain error, at an error returned by Wrap, and at a
foreign wrapper around an error returned by New. -/
theorem Wrap_Error_preserved_witness :
    (Wrap (.plain 1 "EOF") 2 ⟨[1]⟩).Error = (Err.plain 1 "EOF").Error ∧
    (Wrap (Wrap (.plain 1 "EOF") 2 ⟨[1]⟩) 3 ⟨[2]⟩).Error =
      (Wrap (.plain 1 "EOF") 2 ⟨[1]⟩).Error ∧
    Wrap (.wrapper 3 "ctx: boom" (New "boom" 1 2 ⟨[1]⟩)) 4 ⟨[2]⟩ = New "boom" 1 2 ⟨[1]⟩ :=
  ⟨(Wrap_Error_preserved (.plain 1 "EOF") 2 ⟨[1]⟩).1 (Or.inl rfl),
   (Wrap_Error_preserved (Wrap (.plain 1 "EOF") 2 ⟨[1]⟩) 3 ⟨[2]⟩).1 (Or.inr ⟨_, rfl⟩),
   ((Wrap_Error_preserved (.wrapper 3 "ctx: boom" (New "boom" 1 2 ⟨[1]⟩)) 4 ⟨[2]⟩).2 _ rfl).1⟩

/-- C4: for errors each of which is unannotated (chain inspection finds no
Annotated-Error) or is itself a value returned by New, Wrap or Join, the message of
Join is the messages of the arguments, in argument order, with exactly one newline
between consecutive messages (and it fails exactly when the message of some
argument fails); without arguments it is the empty string. -/
theorem Join_Error_concat (causes : List Err) (atList : Addr) (atNode : Nat → Addr)
    (callers : Nat → stack)
    (h : ∀ e ∈ causes, errorsAs toStructure e = none ∨ Returned e) :
    (Join causes atList atNode callers).Error =
        (causes.mapM Err.Error).map (String.intercalate "\n") ∧
    (Join [] atList atNode callers).Error = some "" := by
  refine ⟨?_, rfl⟩
  rw [Join, Err.Error, Structures_Error_eq, Join_loop_messages atNode callers causes 0 h]

/-- Instance of C4 at a plain error, a group returned by Join and an error returned by
New. -/
theorem Join_Error_concat_witness :
    (Join [.plain 1 "EOF", Join [.plain 1 "EOF", .plain 1 "EOF"] 2 (fun i => 3 + i)
        (fun _ => ⟨[1]⟩), New "x" 5 6 ⟨[2]⟩] 7 (fun i => 8 + i) (fun _ => ⟨[3]⟩)).Error =
      some "EOF\nEOF\nEOF\nx" := by
  have h := (Join_Error_concat
    [.plain 1 "EOF", Join [.plain 1 "EOF", .plain 1 "EOF"] 2 (fun i => 3 + i)
      (fun _ => ⟨[1]⟩), New "x" 5 6 ⟨[2]⟩] 7 (fun i => 8 + i)
    (fun _ => ⟨[3]⟩)
    (by
      intro e he
      simp only [List.mem_cons, List.mem_singleton, List.not_mem_nil, or_false] at he
      rcases he with rfl | rfl | rfl
      · exact Or.inl rfl
      · exact Or.inl rfl
      · exact Or.inr (Or.inl ⟨_, _, _, _, rfl⟩))).1
  rw [h]
  decide

/-- C5: the message of New is the message it was given, for every string. -/
theorem New_Error_passthrough (m : String) (atText atNode : Addr) (callers : stack) :
    (New m atText atNode callers).Error = some m ∧
    (New "" atText atNode callers).Error = some "" ∧
    (New "string with format specifiers: %v" atText atNode callers).Error =
      some "string with format specifiers: %v" :=
  ⟨rfl, rfl, rfl⟩

/-- C6: Track of an error returned by New is the one stack trace New captured,
with true; Track of an error in whose chain neither an Annotated-Error nor a group
occurs is the empty collection with false. -/
theorem Track_single_and_plain :
    (∀ (m : String) (atText atNode : Addr) (callers : stack),
      Track (New m atText atNode callers) = ([callers.StackTrace], true)) ∧
    (∀ e : Err, e.annotated = false → Track e = ([], false)) := by
  refine ⟨fun _ _ _ _ => rfl, fun e h => ?_⟩
  have h1 : errorsAs toStructure e = none :=
    errorsAs_of_not_annotated toStructure (fun _ _ => rfl) (fun _ => rfl) (fun _ _ _ => rfl)
      (fun _ _ => rfl) e h
  have h2 : errorsAs toStructures e = none :=
    errorsAs_of_not_annotated toStructures (fun _ _ => rfl) (fun _ => rfl) (fun _ _ _ => rfl)
      (fun _ _ => rfl) e h
  simp [Track, h1, h2]

/-- Instance of C6 at an error returned by New and at a foreign chain without
annotations. -/
theorem Track_single_and_plain_witness :
    Track (New "EOF" 1 2 ⟨[1, 2]⟩) = ([[⟨1⟩, ⟨2⟩]], true) ∧
    Track (.wrapper 5 "read: EOF"
      (.joinError 4 [.plain 1 "EOF", .plain 2 "closed", .uncomparable "list"])) =
        ([], false) :=
  ⟨Track_single_and_plain.1 "EOF" 1 2 ⟨[1, 2]⟩, Track_single_and_plain.2 _ rfl⟩

/-- C7: for errors built with New, Wrap and Join (from plain errors, or from errors
of other packages), Track of their Join reports found and returns exactly one stack
trace per argument, in argument order: the stack of the Annotated-Error found in the
chain of the argument when there is one, otherwise the stack Join captured for
that argument. -/
theorem Track_Join_members (causes : List Err) (atList : Addr) (atNode : Nat → Addr)
    (callers : Nat → stack) (h : ∀ c ∈ causes, Built c) :
    (Track (Join causes atList atNode callers)).2 = true ∧
    (Track (Join causes atList atNode callers)).1.length = causes.length ∧
    ∀ (i : Nat) (c : Err), causes[i]? = some c →
      (Track (Join causes atList atNode callers)).1[i]? =
        some (match errorsAs toStructure c with
          | some origin => origin.Stack.StackTrace
          | none => (callers i).StackTrace) := by
  have hn : errorsAs toStructure (Join causes atList atNode callers) = none :=
    asStructure_group_of_inv _ _ (Built.inv_holds (Built.join causes atList atNode callers h))
  have ht : Track (Join causes atList atNode callers) =
      ((Join.loop atNode callers 0 causes).map (fun m => m.Stack.StackTrace), true) := by
    rw [Track, hn]
    simp [Join, errorsAs, toStructures]
  rw [ht]
  refine ⟨rfl, by simp [Join_loop_length], fun i c hc => ?_⟩
  simp only [List.getElem?_map, Join_loop_get atNode callers causes 0 i c hc, Option.map_some',
    Nat.zero_add]
  cases errorsAs toStructure c <;> simp [Structure.Stack, Structure.stk]

/-- Instance of C7 at the arguments of the test of Track, extended with a group. -/
theorem Track_Join_members_witness :
    Track (Join [.plain 1 "EOF", New "EOF" 2 3 ⟨[1]⟩, Wrap (.plain 1 "EOF") 4 ⟨[2]⟩,
        Join [.plain 1 "EOF"] 5 (fun i => 6 + i) (fun _ => ⟨[3]⟩)] 7 (fun i => 20 + i)
        (fun i => ⟨[10 + i]⟩)) =
      ([[⟨10⟩], [⟨1⟩], [⟨2⟩], [⟨13⟩]], true) ∧
    (Track (Join [.plain 1 "EOF", New "EOF" 2 3 ⟨[1]⟩, Wrap (.plain 1 "EOF") 4 ⟨[2]⟩,
        Join [.plain 1 "EOF"] 5 (fun i => 6 + i) (fun _ => ⟨[3]⟩)] 7 (fun i => 20 + i)
        (fun i => ⟨[10 + i]⟩))).1.length = 4 :=
  ⟨rfl, (Track_Join_members
    [.plain 1 "EOF", New "EOF" 2 3 ⟨[1]⟩, Wrap (.plain 1 "EOF") 4 ⟨[2]⟩,
      Join [.plain 1 "EOF"] 5 (fun i => 6 + i) (fun _ => ⟨[3]⟩)] 7 (fun i => 20 + i)
    (fun i => ⟨[10 + i]⟩)
    (by
      intro c hc
      simp only [List.mem_cons, List.mem_singleton, List.not_mem_nil, or_false] at hc
      rcases hc with rfl | rfl | rfl | rfl
      · exact Built.plain _ _
      · exact Built.new _ _ _ _
      · exact Built.wrap _ _ _ (Built.plain _ _)
      · exact Built.join _ _ _ _ (by
          intro e he
          simp only [List.mem_singleton] at he
          subst he
          exact Built.plain _ _))).2.1⟩

/-- C8, refuted as stated, at two inputs.  Wrap of nil and a plain error are two
non-nil errors; the first member of their Join has a nil cause, the unwrapped group
is the joined error of the one remaining cause, and Is of it against that nil cause
is false.  An error of a slice type and a plain error are two non-nil errors; the
cause of the first member of their Join is that slice-typed error, and Is of the
unwrapped group against it is false, because a target of uncomparable type is never
compared. -/
theorem Is_Unwrap_Join_nil_cause :
    ((∀ e ∈ [Wrap .nil 1 ⟨[1]⟩, Err.plain 2 "EOF"], e.isNil = false) ∧
      (Join.loop (fun i => 4 + i) (fun _ => ⟨[2]⟩) 0
        [Wrap .nil 1 ⟨[1]⟩, Err.plain 2 "EOF"])[0]? = some (.mk 1 .nil ⟨[1]⟩) ∧
      Unwrap (Join [Wrap .nil 1 ⟨[1]⟩, Err.plain 2 "EOF"] 3 (fun i => 4 + i)
        (fun _ => ⟨[2]⟩)) 9 = .joinError 9 [.plain 2 "EOF"] ∧
      Is (Unwrap (Join [Wrap .nil 1 ⟨[1]⟩, Err.plain 2 "EOF"] 3 (fun i => 4 + i)
        (fun _ => ⟨[2]⟩)) 9) (Structure.Cause (.mk 1 .nil ⟨[1]⟩)) = false) ∧
    ((∀ e ∈ [Err.uncomparable "x", Err.plain 2 "EOF"], e.isNil = false) ∧
      (Join.loop (fun i => 4 + i) (fun _ => ⟨[2]⟩) 0
        [Err.uncomparable "x", Err.plain 2 "EOF"])[0]? =
          some (.mk 4 (.uncomparable "x") ⟨[2]⟩) ∧
      Unwrap (Join [Err.uncomparable "x", Err.plain 2 "EOF"] 3 (fun i => 4 + i)
        (fun _ => ⟨[2]⟩)) 9 = .joinError 9 [.uncomparable "x", .plain 2 "EOF"] ∧
      Is (Unwrap (Join [Err.uncomparable "x", Err.plain 2 "EOF"] 3 (fun i => 4 + i)
        (fun _ => ⟨[2]⟩)) 9)
        (Structure.Cause (.mk 4 (.uncomparable "x") ⟨[2]⟩)) = false) := by
  refine ⟨⟨by decide, rfl, rfl, rfl⟩, ⟨by decide, rfl, rfl, rfl⟩⟩

/-- C8, amended: Unwrap of a group is the standard join of the causes of all its
members (nil causes are dropped, and the result is nil when none is left); for
every member whose cause is not nil and of comparable type, Is of the unwrapped
group against that cause is true, and for every member whose cause is of
uncomparable type it is false. -/
theorem Is_Unwrap_Join_cause (causes : List Err) (atList : Addr) (atNode : Nat → Addr)
    (callers : Nat → stack) (fresh : Addr) :
    Unwrap (Join causes atList atNode callers) fresh =
      errorsJoin fresh ((Join.loop atNode callers 0 causes).map Structure.Cause) ∧
    (∀ m ∈ Join.loop atNode callers 0 causes,
      m.Cause.isNil = false → m.Cause.comparable = true →
        Is (Unwrap (Join causes atList atNode callers) fresh) m.Cause = true) ∧
    (∀ m ∈ Join.loop atNode callers 0 causes,
      m.Cause.isNil = false → m.Cause.comparable = false →
        Is (Unwrap (Join causes atList atNode callers) fresh) m.Cause = false) := by
  refine ⟨rfl, fun m hm hn hc => ?_, fun m hm hn hc => ?_⟩
  · exact (errorsIs_errorsJoin fresh _ _ hn (List.mem_map.2 ⟨m, hm, rfl⟩)).trans hc
  · exact (errorsIs_errorsJoin fresh _ _ hn (List.mem_map.2 ⟨m, hm, rfl⟩)).trans hc

/-- Instance of the amended C8: both pointer causes of a three-member group are
found, the slice-typed cause is not. -/
theorem Is_Unwrap_Join_cause_witness :
    Is (Unwrap (Join [New "a" 1 2 ⟨[1]⟩, Err.plain 3 "EOF", Err.uncomparable "x"] 4
        (fun i => 5 + i) (fun _ => ⟨[2]⟩)) 9) (.plain 3 "EOF") = true ∧
    Is (Unwrap (Join [New "a" 1 2 ⟨[1]⟩, Err.plain 3 "EOF", Err.uncomparable "x"] 4
        (fun i => 5 + i) (fun _ => ⟨[2]⟩)) 9) (.plain 1 "a") = true ∧
    Is (Unwrap (Join [New "a" 1 2 ⟨[1]⟩, Err.plain 3 "EOF", Err.uncomparable "x"] 4
        (fun i => 5 + i) (fun _ => ⟨[2]⟩)) 9) (.uncomparable "x") = false :=
  ⟨(Is_Unwrap_Join_cause [New "a" 1 2 ⟨[1]⟩, Err.plain 3 "EOF", Err.uncomparable "x"] 4
      (fun i => 5 + i) (fun _ => ⟨[2]⟩) 9).2.1
      (.mk 6 (.plain 3 "EOF") ⟨[2]⟩) (by simp [Join.loop, errorsAs, toStructure, New]) rfl rfl,
   (Is_Unwrap_Join_cause [New "a" 1 2 ⟨[1]⟩, Err.plain 3 "EOF", Err.uncomparable "x"] 4
      (fun i => 5 + i) (fun _ => ⟨[2]⟩) 9).2.1
      (.mk 2 (.plain 1 "a") ⟨[1]⟩)
      (by simp [Join.loop, errorsAs, toStructure, New, errorsNew]) rfl rfl,
   (Is_Unwrap_Join_cause [New "a" 1 2 ⟨[1]⟩, Err.plain 3 "EOF", Err.uncomparable "x"] 4
      (fun i => 5 + i) (fun _ => ⟨[2]⟩) 9).2.2
      (.mk 7 (.uncomparable "x") ⟨[2]⟩)
      (by simp [Join.loop, errorsAs, toStructure, New]) rfl rfl⟩

/-- C9, refuted as stated: for the empty group returned by Join without arguments,
Track reports found although the returned collection is empty. -/
theorem Track_empty_group_found :
    (Track (Join [] 1 (fun i => 2 + i) (fun _ => ⟨[1]⟩))).2 = true ∧
    (Track (Join [] 1 (fun i => 2 + i) (fun _ => ⟨[1]⟩))).1 = [] ∧
    ¬ ((Track (Join [] 1 (fun i => 2 + i) (fun _ => ⟨[1]⟩))).2 = true ↔
        (Track (Join [] 1 (fun i => 2 + i) (fun _ => ⟨[1]⟩))).1 ≠ []) := by
  refine ⟨rfl, rfl, ?_⟩
  decide

/-- C9, amended: Track reports found exactly when the returned collection is not
empty or chain inspection finds no Annotated-Error and reaches a group without
members, as for the result of Join without arguments; in that last case found is
true and the collection is empty. -/
theorem Track_found_iff (e : Err) :
    ((Track e).2 = true ↔
      ((Track e).1 ≠ [] ∨
        (errorsAs toStructure e = none ∧ errorsAs toStructures e = some []))) ∧
    ((errorsAs toStructure e = none ∧ errorsAs toStructures e = some []) →
      Track e = ([], true)) := by
  unfold Track
  cases h1 : errorsAs toStructure e with
  | some item => simp
  | none =>
    cases h2 : errorsAs toStructures e with
    | some list =>
      cases list with
      | nil => simp
      | cons a rest => simp
    | none => simp

/-- Instance of the amended C9 at the result of Join without arguments and at a
group with one member. -/
theorem Track_found_iff_witness :
    Track (Join [] 1 (fun i => 2 + i) (fun _ => ⟨[1]⟩)) = ([], true) ∧
    (Track (Join [.plain 5 "EOF"] 1 (fun i => 2 + i) (fun _ => ⟨[1]⟩))).2 = true :=
  ⟨(Track_found_iff (Join [] 1 (fun i => 2 + i) (fun _ => ⟨[1]⟩))).2 ⟨rfl, rfl⟩,
   (Track_found_iff (Join [.plain 5 "EOF"] 1 (fun i => 2 + i) (fun _ => ⟨[1]⟩))).1.2
     (Or.inl (by decide))⟩

/-- C10: Wrap of nil returns a non-nil Annotated-Error whose cause is nil: Cause
and Unwrap on it return nil, Track reports it as found, and asking it for its
message fails instead of returning a string; the member Join creates for a nil
argument is such a node as well. -/
theorem Wrap_nil_cause (atNode fresh atList : Addr) (callers : stack)
    (atNodes : Nat → Addr) (atJoin : Nat → stack) :
    Wrap .nil atNode callers = .node (.mk atNode .nil callers) ∧
    (Wrap .nil atNode callers).isNil = false ∧
    (toStructure (Wrap .nil atNode callers)).map Structure.Cause = some .nil ∧
    (toStructure (Wrap .nil atNode callers)).map Structure.Unwrap = some .nil ∧
    Unwrap (Wrap .nil atNode callers) fresh = .nil ∧
    Track (Wrap .nil atNode callers) = ([callers.StackTrace], true) ∧
    (Wrap .nil atNode callers).Error = none ∧
    ∀ (causes : List Err) (i : Nat), causes[i]? = some .nil →
      (Join.loop atNodes atJoin 0 causes)[i]? = some (.mk (atNodes i) .nil (atJoin i)) ∧
      Structure.Cause (.mk (atNodes i) .nil (atJoin i)) = .nil ∧
      Structure.Error (.mk (atNodes i) .nil (atJoin i)) = none ∧
      (Join causes atList atNodes atJoin).Error = none := by
  refine ⟨rfl, rfl, rfl, rfl, rfl, rfl, rfl, fun causes i h => ?_⟩
  have hg := Join_loop_get atNodes atJoin causes 0 i .nil h
  simp only [errorsAs, Nat.zero_add] at hg
  refine ⟨hg, rfl, rfl, ?_⟩
  rw [Join, Err.Error, Structures_Error_eq]
  exact congrArg (Option.map (String.intercalate "\n"))
    (mapM_none_of_mem Structure.Error _ _ (List.getElem?_mem hg) rfl)

/-- Instance of C10 for the second argument of a Join. -/
theorem Wrap_nil_cause_witness :
    (Join.loop (fun i => 20 + i) (fun i => ⟨[10 + i]⟩) 0 [.plain 1 "EOF", .nil])[1]? =
      some (.mk 21 .nil ⟨[11]⟩) ∧
    (Join [.plain 1 "EOF", .nil] 3 (fun i => 20 + i) (fun i => ⟨[10 + i]⟩)).Error = none :=
  ⟨((Wrap_nil_cause 2 9 3 ⟨[1]⟩ (fun i => 20 + i) (fun i => ⟨[10 + i]⟩)).2.2.2.2.2.2.2
      [.plain 1 "EOF", .nil] 1 rfl).1,
   ((Wrap_nil_cause 2 9 3 ⟨[1]⟩ (fun i => 20 + i) (fun i => ⟨[10 + i]⟩)).2.2.2.2.2.2.2
      [.plain 1 "EOF", .nil] 1 rfl).2.2.2⟩

end Errors
